import Mathlib

/-!
Verification of the Global Assets Settlement System (GASS), a one-shot
settlement script (`src/main.py`).  The script loads a ledger of rows
(date, description, platform, amount), removes a fixed denylist of
descriptions, filters by an inclusive date range, splits by platform tag,
aggregates amounts into (amount, count) pairs, values the two asset types,
and pushes the grand total through an eight-step currency-conversion chain.

The embedding below follows the source line by line.  Python floats are
modelled as exact rationals (ℚ); pandas dates are modelled as natural
numbers ordered the usual way; a pandas DataFrame of ledger rows is a
`List Row`.  The outcome of `pd.to_datetime` on a single cell is modelled
as an `Option ℕ` field of a raw row: `none` means the cell does not parse
as a date, in which case the surrounding `try`/`except` block exits the
run.  Interactive I/O and the report file are irrelevant to the claims
about numeric results, so the run pipeline returns an `Option` of the
computed settlement: `none` models `sys.exit` before any report exists.
-/

namespace GASS

/-- `LIQUIDATION_RATE = 0.75` (main.py line 21): gift card to USDT. -/
def LIQUIDATION_RATE : ℚ := 0.75

/-- `SERVICE_FEE_RATE = 0.10` (main.py line 22): management fee. -/
def SERVICE_FEE_RATE : ℚ := 0.10

/-- `SPREAD_FACTOR = 1.824` (main.py line 23): market correction factor. -/
def SPREAD_FACTOR : ℚ := 1.824

/-- One ledger row after date parsing succeeded (a row of `df`). -/
structure Row where
  date : ℕ
  description : String
  platform : String
  amount : ℚ
deriving DecidableEq, Repr

/-- `ignored_entries` (main.py line 105): the description denylist. -/
def ignored_entries : List String :=
  ["Punchcard", "Weekly Badge Bonus", "Bonus Welcome Survey"]

/-- `df_clean = df[~df.description.isin(ignored_entries)]` (line 106):
keep, in order, the rows whose description is not on the denylist. -/
def cleanRows (df : List Row) : List Row :=
  df.filter (fun r => !(ignored_entries.contains r.description))

/-- `df_filtered = df_clean[(df_clean["date"] >= start_date) &
(df_clean["date"] <= end_date)]` (line 111): inclusive range filter. -/
def filterRange (df : List Row) (start_date end_date : ℕ) : List Row :=
  df.filter (fun r => decide (start_date ≤ r.date) && decide (r.date ≤ end_date))

/-- Platform tag of Type 1 assets (line 112). -/
def tagType1 : String := "Digital_Assets_Type_1"

/-- Platform tag of Type 2 assets (line 113). -/
def tagType2 : String := "Digital_Assets_Type_2"

/-- `df_t1 = df_filtered[df_filtered.platform == tag].sort_values('date')`
(lines 112-113): select one platform, stable-sorted by date. -/
def selectPlatform (df : List Row) (tag : String) : List Row :=
  (df.filter (fun r => r.platform == tag)).mergeSort
    (fun a b => decide (a.date ≤ b.date))

/-- `pd.Series.value_counts()` on a series of amounts: one (value, count)
pair per distinct value, ordered by descending count. -/
def value_counts (xs : List ℚ) : List (ℚ × ℕ) :=
  (xs.dedup.map (fun v => (v, xs.count v))).mergeSort
    (fun p q => decide (q.2 ≤ p.2))

/-- `get_stats` (lines 36-40): counts list and values list, as the Python
function returns them (`counts, types`), counts cast to ℚ because the
loop multiplies them into the money amounts. -/
def get_stats (xs : List ℚ) : List ℚ × List ℚ :=
  ((value_counts xs).map (fun p => (p.2 : ℚ)), (value_counts xs).map Prod.fst)

/-- `get_unique_dates` (lines 115-117): distinct dates of the group,
sorted ascending (`value_counts().index.sort_values()`). -/
def get_unique_dates (df : List Row) : List ℕ :=
  ((df.map Row.date).dedup).mergeSort (fun a b => decide (a ≤ b))

/-- A rational rendered for a report line (stand-in for Python `:g`). -/
def fmtQ (q : ℚ) : String := toString q

/-- Loop body of `process_type_1`/`process_type_2` state:
accumulated total, accumulated task count, emitted lines. -/
structure LoopState where
  acc : ℚ
  t_tasks : ℚ
  lines : List String

/-- `process_type_1` (lines 42-56).  `print_func` is the truthiness of
the injected output function; emitted lines are collected in the second
component.  Returns `total_usd = t_points / 100`. -/
def process_type_1 (counts types : List ℚ) (print_func : Bool) : ℚ × List String :=
  let st := (counts.zip types).foldl
    (fun (st : LoopState) (ct : ℚ × ℚ) =>
      let subtotal := ct.2 * ct.1
      { acc := st.acc + subtotal
        t_tasks := st.t_tasks + ct.1
        lines := st.lines ++ (if print_func then
          [fmtQ ct.2 ++ " PTS: " ++ fmtQ ct.1 ++ " units ---> Subtotal: "
            ++ fmtQ subtotal ++ " points"] else []) })
    ⟨0, 0, []⟩
  let total_usd := st.acc / 100
  (total_usd,
    st.lines ++ (if print_func then
      ["TOTAL TYPE 1: " ++ fmtQ st.acc ++ " PTS ---> " ++ fmtQ total_usd ++ " $",
       "TOTAL TASKS: " ++ fmtQ st.t_tasks] else []))

/-- `process_type_2` (lines 58-71): same loop, total is the direct USD
sum with no division. -/
def process_type_2 (counts types : List ℚ) (print_func : Bool) : ℚ × List String :=
  let st := (counts.zip types).foldl
    (fun (st : LoopState) (ct : ℚ × ℚ) =>
      let subtotal := ct.2 * ct.1
      { acc := st.acc + subtotal
        t_tasks := st.t_tasks + ct.1
        lines := st.lines ++ (if print_func then
          [fmtQ ct.2 ++ " $: " ++ fmtQ ct.1 ++ " units ---> Subtotal: "
            ++ fmtQ subtotal ++ " $"] else []) })
    ⟨0, 0, []⟩
  (st.acc,
    st.lines ++ (if print_func then
      ["TOTAL TYPE 2: " ++ fmtQ st.acc ++ " $",
       "TOTAL TASKS: " ++ fmtQ st.t_tasks] else []))

/-- `SettlementResult` (main.py lines 148-165): every figure of the final
financial summary. -/
structure SettlementResult where
  total_raw_usd : ℚ
  total_usdt : ℚ
  comm_usdt : ℚ
  owner_usdt : ℚ
  market_rate : ℚ
  comm_ves : ℚ
  owner_ves : ℚ
  comm_purchasing_usd : ℚ
  owner_purchasing_usd : ℚ
deriving DecidableEq, Repr

/-- The settlement chain (lines 148-165), applied once to the sum of the
two valuation totals with the official BCV rate. -/
def settle (total_raw_usd bcv_rate : ℚ) : SettlementResult :=
  let total_usdt := total_raw_usd * LIQUIDATION_RATE
  let comm_usdt := total_usdt * SERVICE_FEE_RATE
  let owner_usdt := total_usdt - comm_usdt
  let market_rate := bcv_rate * SPREAD_FACTOR
  let comm_ves := comm_usdt * market_rate
  let owner_ves := owner_usdt * market_rate
  let comm_purchasing_usd := comm_ves / bcv_rate
  let owner_purchasing_usd := owner_ves / bcv_rate
  ⟨total_raw_usd, total_usdt, comm_usdt, owner_usdt, market_rate,
    comm_ves, owner_ves, comm_purchasing_usd, owner_purchasing_usd⟩

/-- `selected_file = files[choice - 1]` inside `try`/`except` (lines
88-95).  Python list indexing: a non-negative index `i` is valid when
`i < len`, a negative index `i` is valid when `-len ≤ i` and selects
element `len + i`.  An `IndexError` is caught by the bare `except`, which
prints "Invalid selection." and exits (`none`). -/
def selectFile (files : List String) (choice : ℤ) : Option String :=
  let idx : ℤ := choice - 1
  if 0 ≤ idx then files.get? idx.toNat
  else if 0 ≤ idx + files.length then files.get? (idx + files.length).toNat
  else none

/-- A loaded spreadsheet row before `pd.to_datetime`: `raw_date` is the
outcome of parsing the date cell (`none` when it does not parse). -/
structure RawRow where
  raw_date : Option ℕ
  description : String
  platform : String
  amount : ℚ
deriving DecidableEq, Repr

/-- Parsing one row's date cell. -/
def parseRow (r : RawRow) : Option Row :=
  r.raw_date.map (fun d => ⟨d, r.description, r.platform, r.amount⟩)

/-- `df["date"] = pd.to_datetime(df["date"])` inside `try`/`except`
(lines 98-103): succeeds only when every date cell parses; any failure
hits the `except`, which prints a loading error and exits. -/
def loadData : List RawRow → Option (List Row)
  | [] => some []
  | r :: tl =>
    match parseRow r, loadData tl with
    | some row, some rows => some (row :: rows)
    | _, _ => none

/-- The grand-total pass (lines 146-148): each platform's full-period
amounts go through `get_stats` then the valuation with `print_func=None`;
an empty group contributes `0` without calling the valuation. -/
def grandTotal (df_t1 df_t2 : List Row) : ℚ :=
  (if df_t1.isEmpty then 0
    else
      let s := get_stats (df_t1.map Row.amount)
      (process_type_1 s.1 s.2 false).1) +
  (if df_t2.isEmpty then 0
    else
      let s := get_stats (df_t2.map Row.amount)
      (process_type_2 s.1 s.2 false).1)

/-- The whole run (lines 88-165) at the level the claims need: file
selection, load/parse, clean, range filter, platform split, grand total,
settlement.  `none` models `sys.exit` before the report is written. -/
def runSettlement (files : List String) (choice : ℤ) (raw : List RawRow)
    (start_date end_date : ℕ) (bcv_rate : ℚ) : Option SettlementResult :=
  match selectFile files choice with
  | none => none
  | some _ =>
    match loadData raw with
    | none => none
    | some df =>
      let df_clean := cleanRows df
      let df_filtered := filterRange df_clean start_date end_date
      let df_t1 := selectPlatform df_filtered tagType1
      let df_t2 := selectPlatform df_filtered tagType2
      some (settle (grandTotal df_t1 df_t2) bcv_rate)

/-- C1: the settlement calculator, applied once to the sum of the two
valuation totals with a given official rate, computes exactly the
eight-step chain liquidated = raw·0.75, commission = liquidated·0.10,
owner = liquidated − commission, market_rate = rate·1.824,
ves = usdt·market_rate, usd_eq = ves/rate; and at raw_total = 100,
official_rate = 36.0 it yields 75.00, 7.50, 67.50, 65.664, 492.48,
4432.32, 13.68, 123.12. -/
theorem settle_chain_exact (raw_total official_rate : ℚ) :
    ((settle raw_total official_rate).total_usdt = raw_total * 0.75 ∧
     (settle raw_total official_rate).comm_usdt =
       (settle raw_total official_rate).total_usdt * 0.10 ∧
     (settle raw_total official_rate).owner_usdt =
       (settle raw_total official_rate).total_usdt -
         (settle raw_total official_rate).comm_usdt ∧
     (settle raw_total official_rate).market_rate = official_rate * 1.824 ∧
     (settle raw_total official_rate).comm_ves =
       (settle raw_total official_rate).comm_usdt *
         (settle raw_total official_rate).market_rate ∧
     (settle raw_total official_rate).owner_ves =
       (settle raw_total official_rate).owner_usdt *
         (settle raw_total official_rate).market_rate ∧
     (settle raw_total official_rate).comm_purchasing_usd =
       (settle raw_total official_rate).comm_ves / official_rate ∧
     (settle raw_total official_rate).owner_purchasing_usd =
       (settle raw_total official_rate).owner_ves / official_rate) ∧
    settle 100 36 =
      ⟨100, 75, 7.5, 67.5, 65.664, 492.48, 4432.32, 13.68, 123.12⟩ := by
  refine ⟨⟨rfl, rfl, rfl, rfl, rfl, rfl, rfl, rfl⟩, ?_⟩
  simp only [settle, LIQUIDATION_RATE, SERVICE_FEE_RATE, SPREAD_FACTOR]
  norm_num

/-- C3: in every run's settlement result, commission_usdt + owner_usdt
equals liquidated_usdt in exact arithmetic, and owner_ves divided by the
official rate equals owner_usd_equiv. -/
theorem settle_invariants (raw_total official_rate : ℚ) :
    (settle raw_total official_rate).comm_usdt +
      (settle raw_total official_rate).owner_usdt =
      (settle raw_total official_rate).total_usdt ∧
    (settle raw_total official_rate).owner_ves / official_rate =
      (settle raw_total official_rate).owner_purchasing_usd := by
  constructor
  · simp only [settle]
    ring
  · rfl

/-- C10: for every nonzero official rate the purchasing-power USD figures
are independent of the official rate: commission_usd_equiv =
commission_usdt · 1.824 and owner_usd_equiv = owner_usdt · 1.824. -/
theorem settle_rate_cancels (raw_total official_rate : ℚ)
    (h : official_rate ≠ 0) :
    (settle raw_total official_rate).comm_purchasing_usd =
      (settle raw_total official_rate).comm_usdt * 1.824 ∧
    (settle raw_total official_rate).owner_purchasing_usd =
      (settle raw_total official_rate).owner_usdt * 1.824 := by
  simp only [settle, SPREAD_FACTOR]
  constructor
  · field_simp
    ring
  · field_simp
    ring

/-- Witness for `settle_rate_cancels` at raw_total = 100, rate = 36. -/
theorem settle_rate_cancels_witness :
    (36 : ℚ) ≠ 0 ∧
    ((settle 100 36).comm_purchasing_usd = (settle 100 36).comm_usdt * 1.824 ∧
     (settle 100 36).owner_purchasing_usd = (settle 100 36).owner_usdt * 1.824) :=
  ⟨by norm_num, settle_rate_cancels 100 36 (by norm_num)⟩

/-- Any valuation loop that adds `t * c` to the accumulator at each pair
ends with the initial accumulator plus the sum of the products. -/
lemma foldl_acc_eq (f : LoopState → ℚ × ℚ → LoopState)
    (hf : ∀ st ct, (f st ct).acc = st.acc + ct.2 * ct.1) :
    ∀ (l : List (ℚ × ℚ)) (st : LoopState),
      (l.foldl f st).acc = st.acc + (l.map (fun ct => ct.2 * ct.1)).sum := by
  intro l
  induction l with
  | nil => intro st; simp
  | cons a tl ih =>
    intro st
    rw [List.foldl_cons, ih, hf]
    simp
    ring

/-- Any valuation loop that never touches the emitted lines leaves them
at their initial value. -/
lemma foldl_lines_eq (f : LoopState → ℚ × ℚ → LoopState)
    (hf : ∀ st ct, (f st ct).lines = st.lines) :
    ∀ (l : List (ℚ × ℚ)) (st : LoopState), (l.foldl f st).lines = st.lines := by
  intro l
  induction l with
  | nil => intro st; rfl
  | cons a tl ih =>
    intro st
    rw [List.foldl_cons, ih, hf]

/-- C2: for every list of non-negative (amount, count) pairs, the Type 1
valuation returns (Σ amount·count) / 100, and the Type 2 valuation
returns Σ amount·count.  The loop pairs up `zip(counts, types)` exactly
as the source does. -/
theorem valuation_totals (counts types : List ℚ) (print_func : Bool)
    (h : ∀ ct ∈ counts.zip types, 0 ≤ ct.1 ∧ 0 ≤ ct.2) :
    (process_type_1 counts types print_func).1 =
      ((counts.zip types).map (fun ct => ct.2 * ct.1)).sum / 100 ∧
    (process_type_2 counts types print_func).1 =
      ((counts.zip types).map (fun ct => ct.2 * ct.1)).sum := by
  constructor
  · simp only [process_type_1]
    rw [foldl_acc_eq]
    · simp
    · intro st ct; rfl
  · simp only [process_type_2]
    rw [foldl_acc_eq]
    · simp
    · intro st ct; rfl

/-- Witness for `valuation_totals` at counts = [2, 1], types = [50, 30]:
Type 1 gives (50·2 + 30·1)/100 = 1.3, Type 2 gives 130. -/
theorem valuation_totals_witness :
    (∀ ct ∈ List.zip [(2 : ℚ), 1] [(50 : ℚ), 30], 0 ≤ ct.1 ∧ 0 ≤ ct.2) ∧
    ((process_type_1 [2, 1] [50, 30] false).1 =
      ((List.zip [(2 : ℚ), 1] [(50 : ℚ), 30]).map (fun ct => ct.2 * ct.1)).sum / 100 ∧
     (process_type_2 [2, 1] [50, 30] false).1 =
      ((List.zip [(2 : ℚ), 1] [(50 : ℚ), 30]).map (fun ct => ct.2 * ct.1)).sum) :=
  ⟨by decide, valuation_totals [2, 1] [50, 30] false (by decide)⟩

/-- C9: for every (counts, types) input the numeric total of each
valuation is the same whether an output function is supplied or not, and
with no output function no output lines are emitted. -/
theorem valuation_total_independent_of_output (counts types : List ℚ) :
    (process_type_1 counts types true).1 = (process_type_1 counts types false).1 ∧
    (process_type_2 counts types true).1 = (process_type_2 counts types false).1 ∧
    (process_type_1 counts types false).2 = [] ∧
    (process_type_2 counts types false).2 = [] := by
  refine ⟨?_, ?_, ?_, ?_⟩
  · simp only [process_type_1]
    rw [foldl_acc_eq, foldl_acc_eq]
    · intro st ct; rfl
    · intro st ct; rfl
  · simp only [process_type_2]
    rw [foldl_acc_eq, foldl_acc_eq]
    · intro st ct; rfl
    · intro st ct; rfl
  · simp only [process_type_1]
    rw [foldl_lines_eq]
    · simp
    · intro st ct; simp
  · simp only [process_type_2]
    rw [foldl_lines_eq]
    · simp
    · intro st ct; simp

/-- Unfolding membership in the range filter. -/
lemma mem_filterRange_iff {df : List Row} {s e : ℕ} {r : Row} :
    r ∈ filterRange df s e ↔ r ∈ df ∧ s ≤ r.date ∧ r.date ≤ e := by
  simp [filterRange, List.mem_filter, and_assoc]

/-- C4 counterexample: with start_date = 5 and end_date = 3, a row dated
exactly start_date is dropped by the range filter, so the claim's "for
every start/end date a row dated start_date is kept" is false as stated. -/
theorem filter_range_drops_start_when_reversed :
    Row.mk 5 "d" "p" 1 ∈ [Row.mk 5 "d" "p" 1] ∧
    (Row.mk 5 "d" "p" 1).date = 5 ∧
    Row.mk 5 "d" "p" 1 ∉ filterRange [Row.mk 5 "d" "p" 1] 5 3 := by
  refine ⟨List.mem_singleton.mpr rfl, rfl, ?_⟩
  decide

/-- C4 (amended): whenever start_date ≤ end_date, a row dated exactly
start_date or exactly end_date is kept by the range filter; and
unconditionally every kept row's date lies in [start_date, end_date]. -/
theorem filter_range_inclusive (df : List Row) (start_date end_date : ℕ) :
    (start_date ≤ end_date →
      ∀ r ∈ df, (r.date = start_date ∨ r.date = end_date) →
        r ∈ filterRange df start_date end_date) ∧
    (∀ r ∈ filterRange df start_date end_date,
      start_date ≤ r.date ∧ r.date ≤ end_date) := by
  constructor
  · intro hle r hr hdate
    simp only [filterRange, List.mem_filter, Bool.and_eq_true, decide_eq_true_eq]
    rcases hdate with h | h <;> exact ⟨hr, by omega⟩
  · intro r hr
    simp only [filterRange, List.mem_filter, Bool.and_eq_true, decide_eq_true_eq] at hr
    exact hr.2

/-- Witness for `filter_range_inclusive`: a row dated exactly the start
of the range [3, 4] is kept. -/
theorem filter_range_inclusive_witness :
    Row.mk 3 "d" "p" 1 ∈ filterRange [Row.mk 3 "d" "p" 1] 3 4 :=
  (filter_range_inclusive [Row.mk 3 "d" "p" 1] 3 4).1 (by omega)
    (Row.mk 3 "d" "p" 1) (List.mem_singleton.mpr rfl) (Or.inl rfl)

/-- C5: the claim says every selection outside 1..n exits with an error
and no report.  The code does `files[choice - 1]`, and Python's negative
indexing makes selection 0 pick the LAST listed file (index -1) and
proceed to produce a report — a slip the bare `except` never sees. -/
theorem selectFile_zero_picks_last :
    selectFile ["alpha.xlsx", "beta.xlsx"] 0 = some "beta.xlsx" ∧
    runSettlement ["alpha.xlsx", "beta.xlsx"] 0 [] 0 0 36 =
      some (settle 0 36) := by
  constructor
  · rfl
  · have h1 : selectFile ["alpha.xlsx", "beta.xlsx"] 0 = some "beta.xlsx" := rfl
    have h2 : loadData [] = some [] := rfl
    simp [runSettlement, h1, h2, cleanRows, filterRange, selectPlatform,
      grandTotal, List.mergeSort_nil]

/-- C6: every row whose description matches one of the three denylist
strings is excluded from the cleaned set (hence from every downstream
aggregate, which reads only the cleaned set), regardless of date or
platform; all other rows are kept in their original order (the cleaned
set is a sublist of the input). -/
theorem clean_excludes_denylist (df : List Row) :
    (cleanRows df).Sublist df ∧
    (∀ r : Row, r ∈ cleanRows df ↔ r ∈ df ∧ r.description ∉ ignored_entries) ∧
    (∀ start_date end_date : ℕ,
      ∀ r ∈ filterRange (cleanRows df) start_date end_date,
        r.description ∉ ignored_entries) := by
  refine ⟨List.filter_sublist df, ?_, ?_⟩
  · intro r
    simp [cleanRows, List.mem_filter]
  · intro s e r hr
    have hmem := (mem_filterRange_iff.mp hr).1
    simp [cleanRows, List.mem_filter] at hmem
    exact hmem.2

/-- Witness for `clean_excludes_denylist`: a non-denylisted row survives
cleaning while sitting next to a denylisted one. -/
theorem clean_excludes_denylist_witness :
    Row.mk 1 "Task" "p" 2 ∈
      cleanRows [Row.mk 1 "Punchcard" "p" 5, Row.mk 1 "Task" "p" 2] :=
  ((clean_excludes_denylist
      [Row.mk 1 "Punchcard" "p" 5, Row.mk 1 "Task" "p" 2]).2.1
    (Row.mk 1 "Task" "p" 2)).mpr ⟨by decide, by decide⟩

/-- C7: the aggregator maps a row group to (amount, count) pairs where
the count is the number of rows sharing that amount, ordered by
descending frequency; the amounts appearing are exactly those of the
group; `get_stats` returns exactly the counts list and values list of
those pairs; and the per-date iteration visits the distinct dates of a
platform group in ascending order. -/
theorem stats_counts_and_date_order (xs : List ℚ) (df : List Row) :
    (∀ p ∈ value_counts xs, p.2 = xs.count p.1) ∧
    (value_counts xs).Pairwise (fun p q => q.2 ≤ p.2) ∧
    (∀ v : ℚ, (∃ p ∈ value_counts xs, p.1 = v) ↔ v ∈ xs) ∧
    get_stats xs =
      ((value_counts xs).map (fun p => (p.2 : ℚ)), (value_counts xs).map Prod.fst) ∧
    (get_unique_dates df).Sorted (fun a b => a ≤ b) ∧
    (∀ d : ℕ, d ∈ get_unique_dates df ↔ d ∈ df.map Row.date) := by
  refine ⟨?_, ?_, ?_, rfl, ?_, ?_⟩
  · intro p hp
    rw [value_counts, List.mem_mergeSort] at hp
    obtain ⟨v, _, rfl⟩ := List.mem_map.mp hp
    rfl
  · have hs := @List.sorted_mergeSort (ℚ × ℕ)
      (fun p q => decide (q.2 ≤ p.2))
      (fun a b c h1 h2 => by
        simp only [decide_eq_true_eq] at h1 h2 ⊢
        omega)
      (fun a b => by
        simp only [Bool.or_eq_true, decide_eq_true_eq]
        omega)
      (xs.dedup.map (fun v => (v, xs.count v)))
    rw [value_counts]
    exact hs.imp (fun h => of_decide_eq_true h)
  · intro v
    constructor
    · rintro ⟨p, hp, rfl⟩
      rw [value_counts, List.mem_mergeSort] at hp
      obtain ⟨u, hu, rfl⟩ := List.mem_map.mp hp
      exact List.mem_dedup.mp hu
    · intro hv
      refine ⟨(v, xs.count v), ?_, rfl⟩
      rw [value_counts, List.mem_mergeSort]
      exact List.mem_map.mpr ⟨v, List.mem_dedup.mpr hv, rfl⟩
  · have hs := @List.sorted_mergeSort ℕ
      (fun a b => decide (a ≤ b))
      (fun a b c h1 h2 => by
        simp only [decide_eq_true_eq] at h1 h2 ⊢
        omega)
      (fun a b => by
        simp only [Bool.or_eq_true, decide_eq_true_eq]
        omega)
      ((df.map Row.date).dedup)
    rw [get_unique_dates]
    exact hs.imp (fun h => of_decide_eq_true h)
  · intro d
    rw [get_unique_dates, List.mem_mergeSort, List.mem_dedup]

/-- Witness for `stats_counts_and_date_order`: in the group with amounts
[5, 5, 3], the pair for amount 5 carries count 2 = the number of rows
sharing amount 5. -/
theorem stats_counts_witness :
    ((5 : ℚ), 2) ∈ value_counts [5, 5, 3] ∧
    (2 : ℕ) = List.count (5 : ℚ) [5, 5, 3] :=
  have hp : ((5 : ℚ), 2) ∈ value_counts [5, 5, 3] := by
    rw [value_counts, List.mem_mergeSort]
    decide
  ⟨hp, (stats_counts_and_date_order [5, 5, 3] []).1 ((5 : ℚ), 2) hp⟩

/-- Failing to parse one row's date cell fails the whole `mapM`. -/
lemma loadData_eq_none {raw : List RawRow} {r : RawRow}
    (hr : r ∈ raw) (hnone : r.raw_date = none) : loadData raw = none := by
  induction raw with
  | nil => cases hr
  | cons a tl ih =>
    rcases List.mem_cons.mp hr with h | h
    · subst h
      simp [loadData, parseRow, hnone]
    · have htl := ih h
      cases hp : parseRow a <;> simp [loadData, hp, htl]

/-- C8: if the input file's date column contains a value that cannot be
parsed as a date, the load stage fails and the run terminates before any
settlement (hence no report) is produced. -/
theorem unparsable_date_is_fatal (files : List String) (choice : ℤ)
    (raw : List RawRow) (start_date end_date : ℕ) (bcv_rate : ℚ)
    (h : ∃ r ∈ raw, r.raw_date = none) :
    loadData raw = none ∧
    runSettlement files choice raw start_date end_date bcv_rate = none := by
  obtain ⟨r, hr, hnone⟩ := h
  have hload := loadData_eq_none hr hnone
  refine ⟨hload, ?_⟩
  cases hsel : selectFile files choice with
  | none => simp [runSettlement, hsel]
  | some f => simp [runSettlement, hsel, hload]

/-- Witness for `unparsable_date_is_fatal`: one row with an unparsable
date cell aborts the run. -/
theorem unparsable_date_is_fatal_witness :
    (∃ r ∈ [RawRow.mk none "d" "p" 1], r.raw_date = none) ∧
    runSettlement ["a.xlsx"] 1 [RawRow.mk none "d" "p" 1] 0 9 36 = none :=
  ⟨⟨RawRow.mk none "d" "p" 1, List.mem_singleton.mpr rfl, rfl⟩,
   (unparsable_date_is_fatal ["a.xlsx"] 1 [RawRow.mk none "d" "p" 1] 0 9 36
     ⟨RawRow.mk none "d" "p" 1, List.mem_singleton.mpr rfl, rfl⟩).2⟩

end GASS
